import Mathlib

/-!
Shallow embedding, in Lean 4, of the simulation core of `src/app_Version2.js`
(hemodynamics playground: time-varying-elastance left ventricle, two diode
valves, Windkessel arterial load, explicit-Euler integration).

Modelling conventions:
* JavaScript numbers are modelled by real numbers (`ℝ`).  IEEE artefacts
  (NaN, signed infinities, rounding) have no counterpart here; every
  value-level theorem below is stated on inputs where the JavaScript
  computation stays finite, and divergences are flagged at the definition
  concerned.
* `opts.stepsPerBeat` and `opts.beats` are modelled as integers (`ℤ`): the
  code only uses them through the `beats * stepsPerBeat` loop bound and the
  last-beat retention test, and callers pass integral values.
* The UI-facing code (DOM wiring, charts, import/export, preset application,
  persistence) is outside the engine; `runSimulation` (source lines 122–190)
  and its helper functions are translated one by one below, keeping the
  source names.
-/

noncomputable section

/-- Parameter record produced by `getParamsFromUI` (source lines 69–84) and
consumed by `runSimulation`.  The boolean `autoEsv` UI flag is never read by
`runSimulation` and is omitted. -/
structure Params where
  hr : ℝ
  edv : ℝ
  esv : ℝ
  contr : ℝ
  svr : ℝ
  comp : ℝ
  rap : ℝ
  Emax : ℝ
  Emin : ℝ
  V0 : ℝ

/-- Options record `opts` of `runSimulation` (source line 122). -/
structure RunOpts where
  stepsPerBeat : ℤ
  beats : ℤ

/-- Truncation of a real toward zero, matching the rounding used by the
JavaScript `%` operator on finite operands. -/
def realTrunc (x : ℝ) : ℤ := if 0 ≤ x then ⌊x⌋ else ⌈x⌉

/-- JavaScript remainder `a % b` on finite reals with `b ≠ 0`:
`a - b * trunc (a / b)`.  For `b = 0` JavaScript yields NaN, which `ℝ`
cannot express; the engine only takes remainders by the cycle length
`60 / hr`. -/
def jsFmod (a b : ℝ) : ℝ := a - b * (realTrunc (a / b) : ℝ)

/-- Normalized elastance waveform (source lines 87–101).  `Math.pow` is
modelled by the real power `Real.rpow`; on the domain of use the base
`sin (π x)` is nonnegative, where the two functions agree. -/
def normalizedElastance (tFrac : ℝ) : ℝ :=
  if tFrac < 0.33 then
    Real.sin (Real.pi * (tFrac / 0.33)) ^ (1.5 : ℝ)
  else
    0.05 * Real.exp (-3 * ((tFrac - 0.33) / (1 - 0.33)))

/-- Diode valve flow (source lines 104–109). -/
def valveFlow (P_up P_down Rval : ℝ) : ℝ :=
  if P_up - P_down ≤ 0 then 0 else (P_up - P_down) / Rval

/-- Unit conversion from systemic vascular resistance (dyn·s·cm⁻⁵) to
hydraulic peripheral resistance in mmHg/(mL/s) (source lines 114–119). -/
def svr_to_Rperipheral (svr : ℝ) : ℝ := svr / 80.0 / 60.0

/-- Characteristic impedance constant declared in `runSimulation` (source
line 127); it is never used by the integration. -/
def Zc : ℝ := 0.01

/-- Mitral valve resistance constant (source line 128). -/
def Rval_mitral : ℝ := 0.005

/-- Aortic valve resistance constant (source line 129). -/
def Rval_aortic : ℝ := 0.0025

/-- The two integrated state variables (source lines 131–133). -/
structure SimState where
  V_lv : ℝ
  P_art : ℝ

/-- One retained trace sample `{tFrac, P_art, P_lv, V_lv}` (source line
163).  `P_art` and `V_lv` are the post-update state of the step; `P_lv` is
the ventricular pressure computed from the pre-update volume. -/
structure TraceSample where
  tFrac : ℝ
  P_art : ℝ
  P_lv : ℝ
  V_lv : ℝ

/-- One PV-loop point `{x: V_lv, y: P_lv}` (source line 164). -/
structure PVPoint where
  x : ℝ
  y : ℝ

/-- Cycle phase of integration step `step` (source lines 141–143):
`t = step·dt`, `T = 60/hr`, `tFrac = (t % T) / T`. -/
def phaseAt (p : Params) (dt : ℝ) (step : ℕ) : ℝ :=
  jsFmod ((step : ℝ) * dt) (60.0 / p.hr) / (60.0 / p.hr)

/-- Scaled elastance `E_t = Emin + (Emax − Emin) · En` (source line 145). -/
def scaledElastance (p : Params) (tFrac : ℝ) : ℝ :=
  p.Emin + (p.Emax - p.Emin) * normalizedElastance tFrac

/-- Ventricular pressure `P_lv = E_t · max(0, V_lv − V0)` (source line
147). -/
def lvPressure (p : Params) (tFrac V : ℝ) : ℝ :=
  scaledElastance p tFrac * max 0 (V - p.V0)

/-- Body of one integration step (source lines 141–164): the updated state
together with the sample that would be pushed on the trace for this step.
Both flows and both derivatives are computed from the incoming state `s`;
the two state components are then updated from those precomputed values. -/
def simStepFull (p : Params) (R_per dt : ℝ) (step : ℕ) (s : SimState) :
    SimState × TraceSample :=
  let tFrac := phaseAt p dt step
  let P_lv := lvPressure p tFrac s.V_lv
  let Qin := valveFlow p.rap P_lv Rval_mitral
  let Qout := valveFlow P_lv s.P_art Rval_aortic
  let dPdt := (Qout - s.P_art / R_per) / p.comp
  let P_art' := s.P_art + dPdt * dt
  let V_lv' := s.V_lv + (Qin - Qout) * dt
  (⟨V_lv', P_art'⟩, ⟨tFrac, P_art', P_lv, V_lv'⟩)

/-- State part of one integration step. -/
def simStep (p : Params) (R_per dt : ℝ) (step : ℕ) (s : SimState) :
    SimState :=
  (simStepFull p R_per dt step s).1

/-- Accumulator of the integration loop: the running state plus the two
lists pushed during the final beat (source lines 136–137). -/
structure LoopAcc where
  st : SimState
  traceP : List TraceSample
  pvPoints : List PVPoint

/-- One iteration of the integration loop (source lines 140–166): advance
the state and, for steps of the final beat
(`step ≥ totalSteps - stepsPerBeat`), push the trace sample and the PV
point. -/
def loopBody (p : Params) (R_per dt : ℝ) (tot spb : ℤ) (acc : LoopAcc)
    (step : ℕ) : LoopAcc :=
  let r := simStepFull p R_per dt step acc.st
  if (step : ℤ) ≥ tot - spb then
    ⟨r.1, acc.traceP ++ [r.2], acc.pvPoints ++ [⟨r.2.V_lv, r.2.P_lv⟩]⟩
  else
    ⟨r.1, acc.traceP, acc.pvPoints⟩

/-- Initial state of a run (source lines 131–133): `V_lv = edv` and the
fixed arterial seed `P_art = 90`. -/
def initState (p : Params) : SimState := ⟨p.edv, 90⟩

/-- Time step `dt = (60 / hr) / stepsPerBeat` in seconds (source line
124). -/
def simDt (p : Params) (o : RunOpts) : ℝ :=
  60.0 / p.hr / (o.stepsPerBeat : ℝ)

/-- Total number of integration steps `beats · stepsPerBeat` (source line
139). -/
def totalSteps (o : RunOpts) : ℤ := o.beats * o.stepsPerBeat

/-- Loop accumulator after the first `n` iterations, starting from state
`init` with empty trace lists. -/
def loopAcc (p : Params) (R_per dt : ℝ) (tot spb : ℤ) (init : SimState)
    (n : ℕ) : LoopAcc :=
  (List.range n).foldl (loopBody p R_per dt tot spb) ⟨init, [], []⟩

/-- The full integration loop of `runSimulation` (source lines 131–166). -/
def runLoop (p : Params) (o : RunOpts) : LoopAcc :=
  loopAcc p (svr_to_Rperipheral p.svr) (simDt p o) (totalSteps o)
    o.stepsPerBeat (initState p) (totalSteps o).toNat

/-- Spread maximum `Math.max(...xs)`.  On the empty list JavaScript returns
−Infinity, which `ℝ` cannot represent; this model returns `0` there.  Every
value-level theorem below applies it to nonempty lists only, except through
quantities such as `max 0 (EDV − ESV)` whose JavaScript value on the empty
trace is reproduced. -/
def jsMax : List ℝ → ℝ
  | [] => 0
  | x :: xs => xs.foldl max x

/-- Spread minimum `Math.min(...xs)`: +Infinity on the empty list in
JavaScript, `0` in this model (see `jsMax`). -/
def jsMin : List ℝ → ℝ
  | [] => 0
  | x :: xs => xs.foldl min x

/-- The nine summary statistics (source lines 169–183). -/
structure Metrics where
  EDV : ℝ
  ESV : ℝ
  SV : ℝ
  CO : ℝ
  MAP : ℝ
  SBP : ℝ
  DBP : ℝ
  PP : ℝ
  EF : ℝ

/-- Metrics extraction from the retained trace (source lines 169–183).  The
unused source bindings `Vvals` (line 170) and `P_lv_vals` (line 174) are
dead code and are not reproduced. -/
def extractMetrics (hr : ℝ) (traceP : List TraceSample) : Metrics :=
  let Vlast := traceP.map fun s => s.V_lv
  let P_art_vals := traceP.map fun s => s.P_art
  let EDV := jsMax Vlast
  let ESV := jsMin Vlast
  let SV := max 0 (EDV - ESV)
  let CO := hr * SV / 1000.0
  let MAP := P_art_vals.foldl (· + ·) 0 / (P_art_vals.length : ℝ)
  let SBP := jsMax P_art_vals
  let DBP := jsMin P_art_vals
  let PP := SBP - DBP
  let EF := if EDV > 0 then SV / EDV * 100.0 else 0.0
  ⟨EDV, ESV, SV, CO, MAP, SBP, DBP, PP, EF⟩

/-- Result record of `runSimulation` (source lines 185–189). -/
structure SimResult where
  traceP : List TraceSample
  pvPoints : List PVPoint
  EDV : ℝ
  ESV : ℝ
  SV : ℝ
  CO : ℝ
  MAP : ℝ
  SBP : ℝ
  DBP : ℝ
  PP : ℝ
  EF : ℝ

/-- The simulation engine `runSimulation` (source lines 122–190). -/
def runSimulation (p : Params) (o : RunOpts) : SimResult :=
  let acc := runLoop p o
  let m := extractMetrics p.hr acc.traceP
  ⟨acc.traceP, acc.pvPoints, m.EDV, m.ESV, m.SV, m.CO, m.MAP, m.SBP, m.DBP,
    m.PP, m.EF⟩

/-- The `normal` preset of the source preset table (source lines
209–211). -/
def normalPreset : Params :=
  ⟨75, 120, 50, 0.5, 1200, 1.5, 2, 2.0, 0.06, 10⟩

/-- The `normal` preset with `Emin` raised to `Emax = 2.0`: the boundary
case `maxElastance = minElastance` (zero-amplitude elastance). -/
def zeroAmplitudeParams : Params :=
  { normalPreset with Emin := 2.0 }

/-- State of the run before integration step `n`: the pure unfolding of the
state component of the loop. -/
def stateAt (p : Params) (R_per dt : ℝ) (init : SimState) : ℕ → SimState
  | 0 => init
  | n + 1 => simStep p R_per dt n (stateAt p R_per dt init n)

/-- Sample produced by integration step `n`. -/
def sampleAt (p : Params) (R_per dt : ℝ) (init : SimState) (n : ℕ) :
    TraceSample :=
  (simStepFull p R_per dt n (stateAt p R_per dt init n)).2

/-- Parameter-validity violation as stated by the specification (its §7
error taxonomy).  The source contains no corresponding check; this
predicate exists only to state the specification's claim. -/
def specInvalidParameter (p : Params) (o : RunOpts) : Prop :=
  p.hr ≤ 0 ∨ p.comp ≤ 0 ∨ p.svr ≤ 0 ∨ o.stepsPerBeat ≤ 0 ∨ o.beats ≤ 0 ∨
    p.Emax ≤ p.Emin

end

section Lemmas

/-- Both branches of the loop body update the state with `simStep`. -/
theorem loopBody_st (p : Params) (R_per dt : ℝ) (tot spb : ℤ) (acc : LoopAcc)
    (k : ℕ) :
    (loopBody p R_per dt tot spb acc k).st = simStep p R_per dt k acc.st := by
  by_cases hc : ((k : ℤ) ≥ tot - spb) <;> simp [loopBody, simStep, hc]

/-- The trace list grows by the step sample exactly on final-beat steps. -/
theorem loopBody_traceP (p : Params) (R_per dt : ℝ) (tot spb : ℤ)
    (acc : LoopAcc) (k : ℕ) :
    (loopBody p R_per dt tot spb acc k).traceP
      = acc.traceP ++ (if (k : ℤ) ≥ tot - spb
          then [(simStepFull p R_per dt k acc.st).2] else []) := by
  by_cases hc : ((k : ℤ) ≥ tot - spb) <;> simp [loopBody, hc]

/-- The PV list grows by the corresponding point exactly on final-beat
steps. -/
theorem loopBody_pvPoints (p : Params) (R_per dt : ℝ) (tot spb : ℤ)
    (acc : LoopAcc) (k : ℕ) :
    (loopBody p R_per dt tot spb acc k).pvPoints
      = acc.pvPoints ++ (if (k : ℤ) ≥ tot - spb
          then [⟨(simStepFull p R_per dt k acc.st).2.V_lv,
                 (simStepFull p R_per dt k acc.st).2.P_lv⟩] else []) := by
  by_cases hc : ((k : ℤ) ≥ tot - spb) <;> simp [loopBody, hc]

/-- Unfolding of one loop iteration. -/
theorem loopAcc_succ (p : Params) (R_per dt : ℝ) (tot spb : ℤ)
    (init : SimState) (n : ℕ) :
    loopAcc p R_per dt tot spb init (n + 1)
      = loopBody p R_per dt tot spb (loopAcc p R_per dt tot spb init n) n := by
  unfold loopAcc
  rw [List.range_succ, List.foldl_append, List.foldl_cons, List.foldl_nil]

/-- The state component of the loop is the pure iterate `stateAt`. -/
theorem loopAcc_st (p : Params) (R_per dt : ℝ) (tot spb : ℤ)
    (init : SimState) (n : ℕ) :
    (loopAcc p R_per dt tot spb init n).st = stateAt p R_per dt init n := by
  induction n with
  | zero => rfl
  | succ n ih => rw [loopAcc_succ, loopBody_st, ih]; rfl

/-- The trace after `n` iterations holds the samples of exactly the steps
passing the final-beat test, in step order. -/
theorem loopAcc_traceP (p : Params) (R_per dt : ℝ) (tot spb : ℤ)
    (init : SimState) (n : ℕ) :
    (loopAcc p R_per dt tot spb init n).traceP
      = ((List.range n).filter fun k : ℕ => decide ((k : ℤ) ≥ tot - spb)).map
          (sampleAt p R_per dt init) := by
  induction n with
  | zero => rfl
  | succ n ih =>
      rw [loopAcc_succ, loopBody_traceP, loopAcc_st, ih, List.range_succ,
        List.filter_append, List.map_append]
      by_cases hc : ((n : ℤ) ≥ tot - spb)
      · rw [if_pos hc]
        have hd : decide ((n : ℤ) ≥ tot - spb) = true := decide_eq_true hc
        have hf : List.filter (fun k : ℕ => decide ((k : ℤ) ≥ tot - spb)) [n]
            = [n] := by
          simp only [List.filter_singleton, hd, cond_true]
        rw [hf, List.map_cons, List.map_nil]
        rfl
      · rw [if_neg hc]
        have hd : decide ((n : ℤ) ≥ tot - spb) = false := decide_eq_false hc
        have hf : List.filter (fun k : ℕ => decide ((k : ℤ) ≥ tot - spb)) [n]
            = [] := by
          simp only [List.filter_singleton, hd, cond_false]
        rw [hf, List.map_nil, List.append_nil]

/-- The PV list after `n` iterations is the pointwise image of the trace. -/
theorem loopAcc_pvPoints (p : Params) (R_per dt : ℝ) (tot spb : ℤ)
    (init : SimState) (n : ℕ) :
    (loopAcc p R_per dt tot spb init n).pvPoints
      = (loopAcc p R_per dt tot spb init n).traceP.map
          fun s => (⟨s.V_lv, s.P_lv⟩ : PVPoint) := by
  induction n with
  | zero => rfl
  | succ n ih =>
      rw [loopAcc_succ, loopBody_pvPoints, loopBody_traceP, List.map_append,
        ih]
      by_cases hc : ((n : ℤ) ≥ tot - spb) <;> simp [hc]

/-- Trace field of the result is the trace of the loop. -/
theorem runSimulation_traceP (p : Params) (o : RunOpts) :
    (runSimulation p o).traceP = (runLoop p o).traceP := rfl

/-- PV field of the result is the PV list of the loop. -/
theorem runSimulation_pvPoints (p : Params) (o : RunOpts) :
    (runSimulation p o).pvPoints = (runLoop p o).pvPoints := rfl

/-- Initial elements never exceed a left fold by `max`. -/
theorem le_foldl_max (l : List ℝ) : ∀ x : ℝ, x ≤ l.foldl max x := by
  induction l with
  | nil => intro x; exact le_refl x
  | cons a t ih => intro x; exact le_trans (le_max_left x a) (ih (max x a))

/-- A left fold by `min` never exceeds its initial element. -/
theorem foldl_min_le (l : List ℝ) : ∀ x : ℝ, l.foldl min x ≤ x := by
  induction l with
  | nil => intro x; exact le_refl x
  | cons a t ih => intro x; exact le_trans (ih (min x a)) (min_le_left x a)

/-- On a nonempty list the spread minimum is at most the spread maximum. -/
theorem jsMin_le_jsMax (l : List ℝ) (h : l ≠ []) : jsMin l ≤ jsMax l := by
  cases l with
  | nil => exact absurd rfl h
  | cons x xs =>
      exact le_trans (foldl_min_le xs x) (le_foldl_max xs x)

/-- Extremal and derived metrics of a nonempty trace are ordered. -/
theorem extractMetrics_nonempty (hr : ℝ) (tr : List TraceSample)
    (h : tr ≠ []) :
    (extractMetrics hr tr).ESV ≤ (extractMetrics hr tr).EDV ∧
    (extractMetrics hr tr).DBP ≤ (extractMetrics hr tr).SBP ∧
    (extractMetrics hr tr).SV
        = (extractMetrics hr tr).EDV - (extractMetrics hr tr).ESV ∧
    0 ≤ (extractMetrics hr tr).PP := by
  have hV : (tr.map fun s => s.V_lv) ≠ [] := by simpa using h
  have hP : (tr.map fun s => s.P_art) ≠ [] := by simpa using h
  have h1 := jsMin_le_jsMax _ hV
  have h2 := jsMin_le_jsMax _ hP
  simp only [extractMetrics]
  exact ⟨h1, h2, max_eq_right (sub_nonneg.mpr h1), sub_nonneg.mpr h2⟩

/-- Filtering a range by a lower bound keeps the tail of the range. -/
theorem filter_range_ge (m N : ℕ) (h : m ≤ N) :
    (List.range N).filter (fun k => decide (m ≤ k))
      = (List.range (N - m)).map (fun i => m + i) := by
  obtain ⟨d, rfl⟩ := Nat.exists_eq_add_of_le h
  rw [List.range_add, List.filter_append]
  have h1 : (List.range m).filter (fun k => decide (m ≤ k)) = [] := by
    rw [List.filter_eq_nil_iff]
    intro a ha
    simp only [List.mem_range] at ha
    simp [Nat.not_le.mpr ha]
  have h2 : ((List.range d).map fun i => m + i).filter
        (fun k => decide (m ≤ k))
      = (List.range d).map fun i => m + i := by
    rw [List.filter_eq_self]
    intro a ha
    simp only [List.mem_map] at ha
    obtain ⟨i, hi, rfl⟩ := ha
    simp
  rw [h1, h2, List.nil_append, Nat.add_sub_cancel_left]

end Lemmas

section Characterization

/-- The trace of a run with at least one beat and one step per beat is the
ordered list of the samples of the last `stepsPerBeat` steps. -/
theorem runSimulation_traceP_char (p : Params) (o : RunOpts)
    (hb : 1 ≤ o.beats) (hs : 1 ≤ o.stepsPerBeat) :
    (runSimulation p o).traceP
      = (List.range o.stepsPerBeat.toNat).map fun i =>
          sampleAt p (svr_to_Rperipheral p.svr) (simDt p o) (initState p)
            ((totalSteps o).toNat - o.stepsPerBeat.toNat + i) := by
  have hSle : o.stepsPerBeat ≤ totalSteps o := by
    unfold totalSteps
    calc o.stepsPerBeat = 1 * o.stepsPerBeat := (one_mul _).symm
      _ ≤ o.beats * o.stepsPerBeat :=
          mul_le_mul_of_nonneg_right hb (by omega)
  have hpred : (fun k : ℕ => decide ((k : ℤ) ≥ totalSteps o - o.stepsPerBeat))
      = fun k : ℕ => decide ((totalSteps o - o.stepsPerBeat).toNat ≤ k) := by
    funext k
    apply (decide_eq_decide).mpr
    exact ⟨fun h => Int.toNat_le.mpr h, fun h => Int.toNat_le.mp h⟩
  have hmN : (totalSteps o - o.stepsPerBeat).toNat ≤ (totalSteps o).toNat := by
    omega
  rw [runSimulation_traceP]
  unfold runLoop
  rw [loopAcc_traceP, hpred, filter_range_ge _ _ hmN, List.map_map]
  have hd : (totalSteps o).toNat - (totalSteps o - o.stepsPerBeat).toNat
      = o.stepsPerBeat.toNat := by omega
  have hm : (totalSteps o - o.stepsPerBeat).toNat
      = (totalSteps o).toNat - o.stepsPerBeat.toNat := by omega
  rw [hd, hm]
  rfl

/-- Length of the trace of a run with at least one beat and one step per
beat. -/
theorem runSimulation_traceP_length (p : Params) (o : RunOpts)
    (hb : 1 ≤ o.beats) (hs : 1 ≤ o.stepsPerBeat) :
    (runSimulation p o).traceP.length = o.stepsPerBeat.toNat := by
  rw [runSimulation_traceP_char p o hb hs, List.length_map,
    List.length_range]

/-- The PV list of a run is the pointwise image of its trace. -/
theorem runSimulation_pv_char (p : Params) (o : RunOpts) :
    (runSimulation p o).pvPoints
      = (runSimulation p o).traceP.map
          fun s => (⟨s.V_lv, s.P_lv⟩ : PVPoint) := by
  rw [runSimulation_pvPoints, runSimulation_traceP]
  unfold runLoop
  exact loopAcc_pvPoints _ _ _ _ _ _ _

/-- Indexing a mapped PV list below its length. -/
theorem getD_map_pv :
    ∀ (l : List TraceSample) (i : ℕ), i < l.length →
      (l.map fun s => (⟨s.V_lv, s.P_lv⟩ : PVPoint)).getD i ⟨0, 0⟩
        = ⟨(l.getD i ⟨0, 0, 0, 0⟩).V_lv, (l.getD i ⟨0, 0, 0, 0⟩).P_lv⟩
  | [], i, h => absurd h (by simp)
  | s :: t, 0, _ => rfl
  | s :: t, i + 1, h => getD_map_pv t i (by simpa using h)

end Characterization

section Claims

/-- C3: Each integration step is a simultaneous explicit-Euler update: the
post-step arterial pressure is `P_art + dt·(Qout − P_art/R_per)/comp` and
the post-step ventricular volume is `V_lv + dt·(Qin − Qout)`, where the
ventricular pressure and both valve flows `Qin`, `Qout` are computed from
the pre-step state `s` — neither state component's update sees the other's
already-updated value. -/
theorem simStep_simultaneous_euler (p : Params) (R_per dt : ℝ) (n : ℕ)
    (s : SimState) :
    (simStep p R_per dt n s).P_art
        = s.P_art + dt * ((valveFlow (lvPressure p (phaseAt p dt n) s.V_lv)
            s.P_art Rval_aortic - s.P_art / R_per) / p.comp)
      ∧ (simStep p R_per dt n s).V_lv
        = s.V_lv + dt * (valveFlow p.rap
              (lvPressure p (phaseAt p dt n) s.V_lv) Rval_mitral
            - valveFlow (lvPressure p (phaseAt p dt n) s.V_lv) s.P_art
                Rval_aortic) := by
  constructor <;> (simp only [simStep, simStepFull]; ring)

/-- C6: The normalized elastance waveform vanishes at phase 0, takes the
diastolic-branch value 0.05 exactly at the systolic boundary `ts = 0.33`,
and its systolic branch tends to 0 as the phase approaches `ts` from below:
the documented discontinuity of magnitude 0.05. -/
theorem normalizedElastance_boundary :
    normalizedElastance 0 = 0 ∧
    normalizedElastance 0.33 = 0.05 ∧
    Filter.Tendsto normalizedElastance
      (nhdsWithin 0.33 (Set.Iio 0.33)) (nhds 0) := by
  refine ⟨?_, ?_, ?_⟩
  · unfold normalizedElastance
    rw [if_pos (by norm_num : (0:ℝ) < 0.33)]
    norm_num [Real.sin_zero, Real.zero_rpow]
  · unfold normalizedElastance
    rw [if_neg (by norm_num : ¬((0.33:ℝ) < 0.33))]
    norm_num [Real.exp_zero]
  · have hbranch : ∀ x ∈ Set.Iio (0.33:ℝ),
        normalizedElastance x
          = Real.sin (Real.pi * (x / 0.33)) ^ (1.5 : ℝ) := by
      intro x hx
      unfold normalizedElastance
      rw [if_pos (Set.mem_Iio.mp hx)]
    have hsin : Filter.Tendsto (fun x : ℝ => Real.sin (Real.pi * (x / 0.33)))
        (nhds 0.33) (nhds 0) := by
      have hc : Continuous fun x : ℝ => Real.sin (Real.pi * (x / 0.33)) :=
        Real.continuous_sin.comp
          (continuous_const.mul (continuous_id.div_const 0.33))
      have h033 : Real.sin (Real.pi * ((0.33:ℝ) / 0.33)) = 0 := by
        norm_num [Real.sin_pi]
      have := hc.tendsto (0.33 : ℝ)
      rw [h033] at this
      exact this
    have hpow : Filter.Tendsto (fun y : ℝ => y ^ (1.5:ℝ)) (nhds 0)
        (nhds 0) := by
      have hca : ContinuousAt (fun y : ℝ => y ^ (1.5:ℝ)) 0 :=
        Real.continuousAt_rpow_const 0 1.5 (Or.inr (by norm_num))
      have := hca.tendsto
      rw [Real.zero_rpow (by norm_num : (1.5:ℝ) ≠ 0)] at this
      exact this
    have hmain : Filter.Tendsto
        (fun x : ℝ => Real.sin (Real.pi * (x / 0.33)) ^ (1.5:ℝ))
        (nhdsWithin 0.33 (Set.Iio 0.33)) (nhds 0) :=
      (hpow.comp hsin).mono_left nhdsWithin_le_nhds
    exact Filter.Tendsto.congr'
      (Filter.eventuallyEq_of_mem self_mem_nhdsWithin
        fun x hx => (hbranch x hx).symm)
      hmain

/-- C7: The valve is an ideal diode: zero flow under a nonpositive gradient,
gradient over resistance under a positive gradient, and (for positive valve
resistance) never a negative flow. -/
theorem valveFlow_diode (P_up P_down Rval : ℝ) (hR : 0 < Rval) :
    (P_up ≤ P_down → valveFlow P_up P_down Rval = 0) ∧
    (P_down < P_up → valveFlow P_up P_down Rval = (P_up - P_down) / Rval) ∧
    0 ≤ valveFlow P_up P_down Rval := by
  unfold valveFlow
  split_ifs with h
  · exact ⟨fun _ => rfl,
      fun hlt => absurd (sub_pos.mpr hlt) (not_lt.mpr h), le_refl 0⟩
  · exact ⟨fun hle => absurd (sub_nonpos.mpr hle) h, fun _ => rfl,
      div_nonneg (not_le.mp h).le hR.le⟩

/-- Witness for `valveFlow_diode` at the concrete input `(2, 1, 1)`. -/
theorem valveFlow_diode_witness :
    (0:ℝ) < 1 ∧
      (((2:ℝ) ≤ (1:ℝ) → valveFlow 2 1 1 = 0) ∧
       ((1:ℝ) < 2 → valveFlow 2 1 1 = (2 - 1) / 1) ∧
       0 ≤ valveFlow 2 1 1) :=
  ⟨by norm_num, valveFlow_diode 2 1 1 (by norm_num)⟩

/-- C4: The engine is deterministic and stateless across runs: two calls
with equal parameter and option records yield equal results (trace, PV list
and all nine metrics), and every run starts from the fresh initial state
`V_lv = edv`, `P_art = 90`.  `runSimulation` is a pure function of exactly
`(Params, RunOpts)`, so its result depends on nothing else. -/
theorem runSimulation_deterministic (p q : Params) (o o' : RunOpts)
    (hp : p = q) (ho : o = o') :
    runSimulation p o = runSimulation q o'
      ∧ initState p = ⟨p.edv, 90⟩ := by
  subst hp
  subst ho
  exact ⟨rfl, rfl⟩

/-- Witness for `runSimulation_deterministic` on the normal preset with the
default options. -/
theorem runSimulation_deterministic_witness :
    normalPreset = normalPreset ∧
      (runSimulation normalPreset ⟨400, 8⟩
          = runSimulation normalPreset ⟨400, 8⟩
        ∧ initState normalPreset = ⟨normalPreset.edv, 90⟩) :=
  ⟨rfl, runSimulation_deterministic normalPreset normalPreset
    ⟨400, 8⟩ ⟨400, 8⟩ rfl rfl⟩

/-- C5: For beats ≥ 1 and stepsPerBeat ≥ 1, the returned trace has exactly
`stepsPerBeat` samples, and they are precisely the samples of the last
`stepsPerBeat` integration steps (the final beat), in increasing step
order; samples of all earlier beats are discarded. -/
theorem runSimulation_trace_last_beat (p : Params) (o : RunOpts)
    (hb : 1 ≤ o.beats) (hs : 1 ≤ o.stepsPerBeat) :
    (runSimulation p o).traceP.length = o.stepsPerBeat.toNat ∧
    (runSimulation p o).traceP
      = (List.range o.stepsPerBeat.toNat).map fun i =>
          sampleAt p (svr_to_Rperipheral p.svr) (simDt p o) (initState p)
            ((totalSteps o).toNat - o.stepsPerBeat.toNat + i) :=
  ⟨runSimulation_traceP_length p o hb hs,
    runSimulation_traceP_char p o hb hs⟩

/-- Witness for `runSimulation_trace_last_beat` on the normal preset with
one beat of one step. -/
theorem runSimulation_trace_last_beat_witness :
    (1:ℤ) ≤ 1 ∧
      ((runSimulation normalPreset ⟨1, 1⟩).traceP.length = (1:ℤ).toNat ∧
       (runSimulation normalPreset ⟨1, 1⟩).traceP
         = (List.range (1:ℤ).toNat).map fun i =>
             sampleAt normalPreset (svr_to_Rperipheral normalPreset.svr)
               (simDt normalPreset ⟨1, 1⟩) (initState normalPreset)
               ((totalSteps ⟨1, 1⟩).toNat - (1:ℤ).toNat + i)) :=
  ⟨le_refl 1, runSimulation_trace_last_beat normalPreset ⟨1, 1⟩
    (le_refl 1) (le_refl 1)⟩

/-- C9: On every run whose trace is nonempty the reported metrics satisfy
`ESV ≤ EDV` and `DBP ≤ SBP`, hence `SV = EDV − ESV` (the `max 0` clamp never
changes the value) and `PP ≥ 0`, because `EDV`/`SBP` are maxima and
`ESV`/`DBP` minima over the same nonempty sample list. -/
theorem runSimulation_metrics_ordered (p : Params) (o : RunOpts)
    (h : (runSimulation p o).traceP ≠ []) :
    (runSimulation p o).ESV ≤ (runSimulation p o).EDV ∧
    (runSimulation p o).DBP ≤ (runSimulation p o).SBP ∧
    (runSimulation p o).SV
        = (runSimulation p o).EDV - (runSimulation p o).ESV ∧
    0 ≤ (runSimulation p o).PP :=
  extractMetrics_nonempty p.hr (runSimulation p o).traceP h

/-- Witness for `runSimulation_metrics_ordered` on the normal preset with
one beat of one step. -/
theorem runSimulation_metrics_ordered_witness :
    (runSimulation normalPreset ⟨1, 1⟩).traceP ≠ [] ∧
      ((runSimulation normalPreset ⟨1, 1⟩).ESV
          ≤ (runSimulation normalPreset ⟨1, 1⟩).EDV ∧
       (runSimulation normalPreset ⟨1, 1⟩).DBP
          ≤ (runSimulation normalPreset ⟨1, 1⟩).SBP ∧
       (runSimulation normalPreset ⟨1, 1⟩).SV
          = (runSimulation normalPreset ⟨1, 1⟩).EDV
            - (runSimulation normalPreset ⟨1, 1⟩).ESV ∧
       0 ≤ (runSimulation normalPreset ⟨1, 1⟩).PP) := by
  have hne : (runSimulation normalPreset ⟨1, 1⟩).traceP ≠ [] := by
    have hl := runSimulation_traceP_length normalPreset ⟨1, 1⟩
      (le_refl 1) (le_refl 1)
    intro h0
    rw [h0] at hl
    simp at hl
  exact ⟨hne, runSimulation_metrics_ordered normalPreset ⟨1, 1⟩ hne⟩

/-- C10: The result's `pvPoints` list is pointwise redundant with the
trace: equal length, and at every index the point's `x` is the sample's
ventricular volume and its `y` the sample's ventricular pressure. -/
theorem pvPoints_matches_trace (p : Params) (o : RunOpts) :
    (runSimulation p o).pvPoints.length
        = (runSimulation p o).traceP.length ∧
    ∀ i : ℕ, i < (runSimulation p o).traceP.length →
      ((runSimulation p o).pvPoints.getD i ⟨0, 0⟩).x
          = ((runSimulation p o).traceP.getD i ⟨0, 0, 0, 0⟩).V_lv ∧
      ((runSimulation p o).pvPoints.getD i ⟨0, 0⟩).y
          = ((runSimulation p o).traceP.getD i ⟨0, 0, 0, 0⟩).P_lv := by
  have hc := runSimulation_pv_char p o
  constructor
  · rw [hc, List.length_map]
  · intro i hi
    rw [hc, getD_map_pv _ i hi]
    exact ⟨rfl, rfl⟩

/-- Witness for `pvPoints_matches_trace` at index 0 of a one-step run on
the normal preset. -/
theorem pvPoints_matches_trace_witness :
    0 < (runSimulation normalPreset ⟨1, 1⟩).traceP.length ∧
      (((runSimulation normalPreset ⟨1, 1⟩).pvPoints.getD 0 ⟨0, 0⟩).x
          = ((runSimulation normalPreset ⟨1, 1⟩).traceP.getD 0
              ⟨0, 0, 0, 0⟩).V_lv ∧
       ((runSimulation normalPreset ⟨1, 1⟩).pvPoints.getD 0 ⟨0, 0⟩).y
          = ((runSimulation normalPreset ⟨1, 1⟩).traceP.getD 0
              ⟨0, 0, 0, 0⟩).P_lv) := by
  have hpos : 0 < (runSimulation normalPreset ⟨1, 1⟩).traceP.length := by
    rw [runSimulation_traceP_length normalPreset ⟨1, 1⟩
      (le_refl 1) (le_refl 1)]
    norm_num
  exact ⟨hpos, (pvPoints_matches_trace normalPreset ⟨1, 1⟩).2 0 hpos⟩

/-- C1, counterexample: the specification says a run with
`maxElastance = minElastance` (or any other invalid parameter) fails with
InvalidParameter before integration and returns no trace.  The source
performs no such validation: on the zero-amplitude parameters the run
executes all steps and returns a (nonempty) trace. -/
theorem runSimulation_zero_amplitude_returns_trace :
    specInvalidParameter zeroAmplitudeParams ⟨400, 8⟩ ∧
    (runSimulation zeroAmplitudeParams ⟨400, 8⟩).traceP ≠ [] := by
  constructor
  · exact Or.inr (Or.inr (Or.inr (Or.inr (Or.inr (le_refl _)))))
  · have hl := runSimulation_traceP_length zeroAmplitudeParams ⟨400, 8⟩
      (by norm_num) (by norm_num)
    intro h0
    rw [h0] at hl
    simp at hl

/-- C1, amended: `runSimulation` performs no parameter validation at all.
Even when the specification's InvalidParameter predicate holds, a run with
beats ≥ 1 and stepsPerBeat ≥ 1 does not abort: it executes every
integration step and returns a full final-beat trace of `stepsPerBeat`
samples. -/
theorem runSimulation_no_parameter_validation (p : Params) (o : RunOpts)
    (hinv : specInvalidParameter p o) (hb : 1 ≤ o.beats)
    (hs : 1 ≤ o.stepsPerBeat) :
    (runSimulation p o).traceP.length = o.stepsPerBeat.toNat :=
  runSimulation_traceP_length p o hb hs

/-- Witness for `runSimulation_no_parameter_validation` on the
zero-amplitude parameters. -/
theorem runSimulation_no_parameter_validation_witness :
    specInvalidParameter zeroAmplitudeParams ⟨1, 1⟩ ∧ (1:ℤ) ≤ 1 ∧
      (runSimulation zeroAmplitudeParams ⟨1, 1⟩).traceP.length
        = (1:ℤ).toNat :=
  ⟨Or.inr (Or.inr (Or.inr (Or.inr (Or.inr (le_refl _))))), le_refl 1,
    runSimulation_no_parameter_validation zeroAmplitudeParams ⟨1, 1⟩
      (Or.inr (Or.inr (Or.inr (Or.inr (Or.inr (le_refl _))))))
      (le_refl 1) (le_refl 1)⟩

/-- C8, counterexample: the specification says metrics extraction on an
empty trace fails with InvalidInput instead of returning a record.  The
source has no failure path: on the empty trace it still produces a metrics
record, whose `SV`, `CO` and `EF` fields are 0 (exactly as in JavaScript,
where `SV = max(0, −∞ − ∞) = 0`, `CO = hr·0/1000 = 0` and the `EDV > 0`
test fails). -/
theorem extractMetrics_empty_returns_record :
    (extractMetrics 75 []).SV = 0 ∧ (extractMetrics 75 []).CO = 0 ∧
    (extractMetrics 75 []).EF = 0 := by
  refine ⟨?_, ?_, ?_⟩ <;> norm_num [extractMetrics, jsMax, jsMin]

/-- C8, amended: metrics extraction is a total function and never raises an
error: applied to an empty trace it returns a metrics record (with
`SV = CO = EF = 0`; the max/min-based fields take JavaScript infinities
that lie outside the real-valued model) rather than failing with
InvalidInput. -/
theorem extractMetrics_total_on_empty (hr : ℝ) :
    (extractMetrics hr []).SV = 0 ∧ (extractMetrics hr []).CO = 0 ∧
    (extractMetrics hr []).EF = 0 := by
  refine ⟨?_, ?_, ?_⟩ <;> norm_num [extractMetrics, jsMax, jsMin]

end Claims
